import Mathlib

/-!
Shallow embedding of the TurboCookedRabbit v2 publisher
(src/v2/pkg/tcr/publisher.go).

The Go code is concurrent and effectful: it talks to a connection pool,
an AMQP channel, a confirmation stream, timers and Go channels.  We embed
each publish routine as a deterministic interpreter over a trace of
environment events (`Ev`): each event records how one external interaction
resolved (which channel the pool handed out, whether the wire-level
Publish call failed, which arm of the confirmation `select` fired).  The
interpreter emits the observable effects (`Effect`) in source order:
confirmation flushes, timer starts, publish attempts, receipt emissions
and channel returns.  Auxiliary concurrency structure (the auto-publish
semaphore, the `sync.WaitGroup` accounting, the `safeSend` select) is
embedded as small explicit transition systems.
-/

namespace tcr

/-- Envelope (routing metadata) of a `Letter`, mirroring the Go struct
used by the publisher.  Headers are modelled as an association list. -/
structure Envelope where
  Exchange : String
  RoutingKey : String
  Mandatory : Bool
  Immediate : Bool
  ContentType : String
  Headers : List (String × String)
  DeliveryMode : Nat
  Priority : Nat
  CorrelationID : String
  «Type» : String
deriving DecidableEq, Repr

/-- A `Letter`: the unit of outbound publish work.  The Go `LetterID` is a
UUID rendered by `String()`; we model it directly as its string form. -/
structure Letter where
  LetterID : String
  Envelope : Envelope
  Body : List Nat
deriving DecidableEq, Repr

/-- `PublishReceipt`, mirroring the Go struct: terminal outcome record of
one letter's publish.  The Go `error` is modelled as `Option String`
(its rendered message). -/
structure PublishReceipt where
  LetterID : String
  Success : Bool
  Error : Option String
  FailedLetter : Option Letter
deriving DecidableEq, Repr

/-- The publisher configuration fields the embedded routines read.
`publishTimeOutDuration` is in the same abstract time unit as the
`timeout` argument of `PublishWithConfirmation`. -/
structure PublisherCfg where
  publishTimeOutDuration : Nat
  MaxCacheChannelCount : Nat
deriving DecidableEq, Repr

/-- `publishReceipt` (publisher.go lines 611-630): builds the receipt
value that the spawned goroutine places on the receipt channel.
`Success` starts false and is set exactly when the error is nil;
`FailedLetter` is set to the letter exactly when the error is non-nil. -/
def publishReceipt (letter : Letter) (err : Option String) : PublishReceipt :=
  let base : PublishReceipt :=
    { LetterID := letter.LetterID, Success := false, Error := err, FailedLetter := none }
  match err with
  | none => { base with Success := true }
  | some _ => { base with FailedLetter := some letter }

/-- The error message built at publisher.go line 198 when channel
acquisition fails inside `PublishWithConfirmation`
(`fmt.Errorf("publish of LetterID: %s failed: %w", ...)`). -/
def acquireFailMsg (letterID : String) (poolErr : String) : String :=
  "publish of LetterID: " ++ letterID ++ " failed: " ++ poolErr

/-- The error message built at publisher.go line 232 when the
confirmation timeout fires. -/
def confirmTimeoutMsg (letterID : String) : String :=
  "publish confirmation for LetterID: " ++ letterID ++
    " wasn\x27t received in a timely manner - recommend retry/requeue"

/-- One resolved external interaction seen by a publish routine. -/
inductive Ev where
  /-- `GetChannelFromPool` returned the channel host identified by `ch`. -/
  | poolOk (ch : Nat)
  /-- `GetChannelFromPool` returned an error with message `m`. -/
  | poolErr (m : String)
  /-- `chanHost.Channel.Publish` returned nil. -/
  | pubOk
  /-- `chanHost.Channel.Publish` returned an error with message `m`. -/
  | pubErr (m : String)
  /-- the `select` resolved by the `<-timeoutAfter` arm firing. -/
  | timeout
  /-- the `select` resolved by a confirmation arriving with `Ack = ack`
  (the `default` spin arm consumes no event and is not observable). -/
  | confirm (ack : Bool)
deriving DecidableEq, Repr

/-- An observable effect performed by a publish routine, in source order. -/
inductive Effect where
  /-- `chanHost.FlushConfirms()` on channel `ch`. -/
  | flushConfirms (ch : Nat)
  /-- `timeoutAfter := time.After(timeout)`: a fresh full timeout window. -/
  | timerStart (d : Nat)
  /-- `chanHost.Channel.Publish(...)` was invoked for `letter` on `ch`. -/
  | publishAttempt (ch : Nat) (letter : Letter)
  /-- `pub.publishReceipt(...)`: receipt `r` emitted on the receipt stream. -/
  | receiptE (r : PublishReceipt)
  /-- `pub.ConnectionPool.ReturnChannel(host, erred)`; `none` is a nil host. -/
  | returnChannel (host : Option Nat) (erred : Bool)
deriving DecidableEq, Repr

/-- Receipts among a list of effects. -/
def receiptsOf (effs : List Effect) : List PublishReceipt :=
  effs.filterMap fun e =>
    match e with
    | Effect.receiptE r => some r
    | _ => none

/-- Publish attempts among a list of effects (channel id and letter). -/
def attemptsOf (effs : List Effect) : List (Nat × Letter) :=
  effs.filterMap fun e =>
    match e with
    | Effect.publishAttempt ch l => some (ch, l)
    | _ => none

/-- Control point of `PublishWithConfirmation` (publisher.go 188-253).
`acquire` is the top of the outer `for` loop; `publish ch` is the
`Publish:` label holding channel `ch`; `waitConfirm ch` is the inner
confirmation-race loop holding channel `ch`. -/
inductive Phase where
  | acquire
  | publish (ch : Nat)
  | waitConfirm (ch : Nat)
deriving DecidableEq, Repr

/-- One step of `PublishWithConfirmation` (publisher.go 188-253): from a
control point, consume the next resolved external event, emit the effects
the source performs, and either continue at a new control point
(`some phase`) or return (`none`).  Event/phase combinations the source
cannot exhibit yield `Option.none` (malformed trace). -/
def pwcStep (letter : Letter) (t : Nat) :
    Phase → Ev → Option (List Effect × Option Phase)
  | Phase.acquire, Ev.poolOk ch =>
      some ([Effect.flushConfirms ch], some (Phase.publish ch))
  | Phase.acquire, Ev.poolErr m =>
      some ([Effect.receiptE (publishReceipt letter
        (some (acquireFailMsg letter.LetterID m)))], none)
  | Phase.publish ch, Ev.pubOk =>
      some ([Effect.timerStart t, Effect.publishAttempt ch letter],
        some (Phase.waitConfirm ch))
  | Phase.publish ch, Ev.pubErr _ =>
      some ([Effect.timerStart t, Effect.publishAttempt ch letter,
        Effect.returnChannel (some ch) true], some Phase.acquire)
  | Phase.waitConfirm ch, Ev.timeout =>
      some ([Effect.receiptE (publishReceipt letter
          (some (confirmTimeoutMsg letter.LetterID))),
        Effect.returnChannel (some ch) false], none)
  | Phase.waitConfirm ch, Ev.confirm true =>
      some ([Effect.receiptE (publishReceipt letter none),
        Effect.returnChannel (some ch) false], none)
  | Phase.waitConfirm ch, Ev.confirm false =>
      some ([], some (Phase.publish ch))
  | _, _ => none

/-- Run `PublishWithConfirmation` from a control point over an event
trace until it returns.  `some effs` means the call completed having
performed exactly `effs`; `Option.none` means the trace ran out while the
call was still executing, or the trace was malformed. -/
def pwcRun (letter : Letter) (t : Nat) : Phase → List Ev → Option (List Effect)
  | _, [] => none
  | p, e :: evs =>
      match pwcStep letter t p e with
      | none => none
      | some (effs, none) => some effs
      | some (effs, some q) => (pwcRun letter t q evs).map (fun es => effs ++ es)

/-- Run `PublishWithConfirmation` from a control point through a trace of
events on all of which it keeps executing: `some (effs, q)` means every
event was consumed without returning, effects `effs` were performed, and
control is now at `q`. -/
def pwcSteps (letter : Letter) (t : Nat) :
    Phase → List Ev → Option (List Effect × Phase)
  | p, [] => some ([], p)
  | p, e :: evs =>
      match pwcStep letter t p e with
      | some (effs, some q) =>
          (pwcSteps letter t q evs).map (fun pr => (effs ++ pr.1, pr.2))
      | _ => none

/-- The effective timeout (publisher.go 190-192 and 262-264): a zero
`timeout` argument falls back to the configured default. -/
def resolveTimeout (cfg : PublisherCfg) (timeout : Nat) : Nat :=
  if timeout = 0 then cfg.publishTimeOutDuration else timeout

/-- `PublishWithConfirmation` (publisher.go 188-253) as a function of the
letter, the timeout argument and the environment trace. -/
def PublishWithConfirmation (cfg : PublisherCfg) (letter : Letter)
    (timeout : Nat) (evs : List Ev) : Option (List Effect) :=
  pwcRun letter (resolveTimeout cfg timeout) Phase.acquire evs

/-- Step outcome of `PublishWithConfirmationError`: keep executing at a
phase, or return the given Go error value (`none` = nil error). -/
inductive PwceOut where
  | cont (p : Phase)
  | done (err : Option String)
deriving DecidableEq, Repr

/-- One step of `PublishWithConfirmationError` (publisher.go 260-322).
Identical control flow to `pwcStep`, but terminal outcomes return an
error value instead of emitting receipts. -/
def pwceStep (letter : Letter) (t : Nat) :
    Phase → Ev → Option (List Effect × PwceOut)
  | Phase.acquire, Ev.poolOk ch =>
      some ([Effect.flushConfirms ch], PwceOut.cont (Phase.publish ch))
  | Phase.acquire, Ev.poolErr m =>
      some ([], PwceOut.done (some (acquireFailMsg letter.LetterID m)))
  | Phase.publish ch, Ev.pubOk =>
      some ([Effect.timerStart t, Effect.publishAttempt ch letter],
        PwceOut.cont (Phase.waitConfirm ch))
  | Phase.publish ch, Ev.pubErr _ =>
      some ([Effect.timerStart t, Effect.publishAttempt ch letter,
        Effect.returnChannel (some ch) true], PwceOut.cont Phase.acquire)
  | Phase.waitConfirm ch, Ev.timeout =>
      some ([Effect.returnChannel (some ch) false],
        PwceOut.done (some (confirmTimeoutMsg letter.LetterID)))
  | Phase.waitConfirm ch, Ev.confirm true =>
      some ([Effect.returnChannel (some ch) false], PwceOut.done none)
  | Phase.waitConfirm ch, Ev.confirm false =>
      some ([], PwceOut.cont (Phase.publish ch))
  | _, _ => none

/-- Run `PublishWithConfirmationError` from a control point: on
completion, the effects performed and the returned Go error value. -/
def pwceRun (letter : Letter) (t : Nat) :
    Phase → List Ev → Option (List Effect × Option String)
  | _, [] => none
  | p, e :: evs =>
      match pwceStep letter t p e with
      | none => none
      | some (effs, PwceOut.done err) => some (effs, err)
      | some (effs, PwceOut.cont q) =>
          (pwceRun letter t q evs).map (fun pr => (effs ++ pr.1, pr.2))

/-- `PublishWithConfirmationError` (publisher.go 260-322) as a function
of the letter, the timeout argument and the environment trace. -/
def PublishWithConfirmationError (cfg : PublisherCfg) (letter : Letter)
    (timeout : Nat) (evs : List Ev) : Option (List Effect × Option String) :=
  pwceRun letter (resolveTimeout cfg timeout) Phase.acquire evs

/-- `Publish` (publisher.go 74-108): single-shot publish with no retry.
On acquisition failure it returns the nil channel host with `erred=true`
and stops; otherwise it publishes once, optionally emits one receipt of
the raw submission error, and returns the channel flagged erred exactly
when the submission failed. -/
def Publish (letter : Letter) (skipReceipt : Bool) :
    List Ev → Option (List Effect)
  | Ev.poolErr _ :: _ =>
      some [Effect.returnChannel none true]
  | Ev.poolOk ch :: Ev.pubOk :: _ =>
      some (Effect.publishAttempt ch letter ::
        (if skipReceipt then [] else [Effect.receiptE (publishReceipt letter none)]) ++
        [Effect.returnChannel (some ch) false])
  | Ev.poolOk ch :: Ev.pubErr m :: _ =>
      some (Effect.publishAttempt ch letter ::
        (if skipReceipt then [] else [Effect.receiptE (publishReceipt letter (some m))]) ++
        [Effect.returnChannel (some ch) true])
  | _ => none

/-- The event trace of `n` consecutive rounds of "nack received, then the
republish on the same channel succeeds" inside the confirmation race. -/
def nackCycle : Nat → List Ev
  | 0 => []
  | n + 1 => Ev.confirm false :: Ev.pubOk :: nackCycle n

/-- The effects `PublishWithConfirmation` performs during `n` nack
rounds: each round restarts the full timeout window and republishes the
letter on the same channel, emitting nothing else. -/
def nackCycleEffs (letter : Letter) (t ch : Nat) : Nat → List Effect
  | 0 => []
  | n + 1 => Effect.timerStart t :: Effect.publishAttempt ch letter ::
      nackCycleEffs letter t ch n

/-- The event trace of `n` consecutive rounds of "channel acquired, then
the wire-level Publish call fails" in the outer retry loop. -/
def errCycle (ch : Nat) (m : String) : Nat → List Ev
  | 0 => []
  | n + 1 => Ev.poolOk ch :: Ev.pubErr m :: errCycle ch m n

/-- The effects `PublishWithConfirmation` performs during `n` submission
failure rounds: each round flushes the fresh channel, starts a timer,
attempts the publish and returns the channel with `erred = true`. -/
def errCycleEffs (letter : Letter) (t ch : Nat) : Nat → List Effect
  | 0 => []
  | n + 1 => Effect.flushConfirms ch :: Effect.timerStart t ::
      Effect.publishAttempt ch letter :: Effect.returnChannel (some ch) true ::
      errCycleEffs letter t ch n

/-!
### The letters queue and `safeSend` (publisher.go 576-608)

`safeSend` runs a Go `select` between receiving the (possibly closed)
shutdown signal and sending on the buffered `letters` channel, with a
`recover` converting a send-on-closed-channel panic into `false`.  Go
semantics: a `select` case is ready when its communication can proceed
(receiving on a closed channel is always ready; a send is ready when the
buffer has room, and a send on a closed channel "proceeds" by
panicking); among ready cases one is chosen pseudo-randomly.  We model
the buffered `letters` channel explicitly and take the scheduler's pick
as an input `SelCase`; picking a case that is not ready is not a
behaviour of Go (`Option.none`).
-/

/-- The internal buffered `letters` channel of the publisher
(capacity 1000 at construction). -/
structure LettersQueue where
  closed : Bool
  buf : List Letter
  cap : Nat
deriving DecidableEq, Repr

/-- The state `safeSend` interacts with: whether `shutdownSignal` has
been closed (by `Shutdown`), and the letters queue. -/
structure PubState where
  shutdownClosed : Bool
  q : LettersQueue
deriving DecidableEq, Repr

/-- Which arm of `safeSend`'s `select` the Go scheduler picks. -/
inductive SelCase where
  /-- the `case <-pub.AwaitShutdown():` arm. -/
  | shutdownCase
  /-- the `case pub.letters <- letter:` arm. -/
  | sendCase
deriving DecidableEq, Repr

/-- Whether a `select` arm of `safeSend` is ready to proceed in state
`st` (a send on a closed channel is "ready": it proceeds by panicking). -/
def selReady (st : PubState) : SelCase → Bool
  | SelCase.shutdownCase => st.shutdownClosed
  | SelCase.sendCase => st.q.closed || decide (st.q.buf.length < st.q.cap)

/-- `safeSend` (publisher.go 595-608) given the scheduler's pick of a
ready arm: the boolean result and the updated state.  `Option.none`
means the pick was not a ready arm (not a Go behaviour; when no arm is
ready the real call blocks). -/
def safeSend (st : PubState) (letter : Letter) (c : SelCase) :
    Option (Bool × PubState) :=
  if selReady st c then
    match c with
    | SelCase.shutdownCase => some (false, st)
    | SelCase.sendCase =>
        if st.q.closed then
          -- send on closed channel panics; recover() yields ok = false
          some (false, st)
        else
          some (true, { st with q := { st.q with buf := st.q.buf ++ [letter] } })
  else none

/-- `QueueLetter` (publisher.go 589-592): returns `safeSend`. -/
def QueueLetter (st : PubState) (letter : Letter) (c : SelCase) :
    Option (Bool × PubState) :=
  safeSend st letter c

/-- `QueueLetters` (publisher.go 576-586): `safeSend` for each letter in
order, stopping with `false` at the first failure; one scheduler pick per
attempted send. -/
def QueueLetters (st : PubState) :
    List Letter → List SelCase → Option (Bool × PubState)
  | [], _ => some (true, st)
  | letter :: rest, c :: cs =>
      match safeSend st letter c with
      | some (true, st2) => QueueLetters st2 rest cs
      | some (false, st2) => some (false, st2)
      | none => none
  | _ :: _, [] => none

/-!
### The auto-publish parallelism semaphore (publisher.go 552-573)

`deliverLetters` creates `parallelPublishSemaphore` as a buffered channel
of capacity `MaxCacheChannelCount/2 + 1`; it sends one token before
spawning each per-letter publish goroutine, and the goroutine receives
one token when its publish attempt finishes.  Spawned attempts in flight
are therefore bounded by the tokens held.  We model the token count as a
counter: `acquire` blocks (is not a step) at capacity, `release` blocks
when no token is held.
-/

/-- Capacity of `parallelPublishSemaphore` (publisher.go line 555):
`pub.ConnectionPool.Config.MaxCacheChannelCount/2 + 1`. -/
def parallelSemCap (maxCacheChannelCount : Nat) : Nat :=
  maxCacheChannelCount / 2 + 1

/-- A semaphore interaction of the auto-publish drain loop. -/
inductive SemOp where
  /-- `parallelPublishSemaphore <- struct\x7b\x7d\x7b\x7d` before spawning. -/
  | acquire
  /-- `<-parallelPublishSemaphore` when a spawned attempt finishes. -/
  | release
deriving DecidableEq, Repr

/-- One semaphore transition: `n` tokens held, capacity `cap`. -/
def semStep (cap n : Nat) : SemOp → Option Nat
  | SemOp.acquire => if n < cap then some (n + 1) else none
  | SemOp.release => match n with
      | 0 => none
      | k + 1 => some k

/-- Run a sequence of semaphore interactions from `n` tokens held. -/
def semRun (cap : Nat) : Nat → List SemOp → Option Nat
  | n, [] => some n
  | n, op :: ops =>
      match semStep cap n op with
      | none => none
      | some m => semRun cap m ops

/-!
### WaitGroup accounting of spawned work (publisher.go 534-573, 611-644)

Every goroutine the publisher spawns is preceded by `pub.wg.Add(1)` and
ends with a deferred `pub.wg.Done()`: the auto-publish loop
(`StartAutoPublishing`), each per-letter publish attempt
(`deliverLetters`) and each receipt emission (`publishReceipt`).
`Shutdown` closes the shutdown signal and then blocks in `pub.wg.Wait()`
until the counter reaches zero.  We model the counter and the three
spawn sites, with `wg.Wait` returning only at zero.
-/

/-- A WaitGroup-relevant event of the publisher. -/
inductive WgEv where
  /-- `StartAutoPublishing`: `wg.Add(1)` then `go startAutoPublishingLoop()`. -/
  | spawnLoop
  /-- `deliverLetters`: `wg.Add(1)` then `go func(letter) ...`. -/
  | spawnAttempt
  /-- `publishReceipt`: `wg.Add(1)` then `go func(letter, err) ...`. -/
  | spawnReceipt
  /-- a spawned goroutine finishes, running its deferred `wg.Done()`. -/
  | taskDone
  /-- `pub.wg.Wait()` inside `Shutdown` returns. -/
  | waitReturn
deriving DecidableEq, Repr

/-- One WaitGroup transition on the counter: spawns increment, `Done`
decrements (never below zero — the publisher never calls `Done` without
a matching `Add`), and `Wait` returns only when the counter is zero. -/
def wgStep (n : Nat) : WgEv → Option Nat
  | WgEv.spawnLoop => some (n + 1)
  | WgEv.spawnAttempt => some (n + 1)
  | WgEv.spawnReceipt => some (n + 1)
  | WgEv.taskDone => match n with
      | 0 => none
      | k + 1 => some k
  | WgEv.waitReturn => match n with
      | 0 => some 0
      | _ + 1 => none

/-- Run a sequence of WaitGroup events from counter `n`. -/
def wgRun : Nat → List WgEv → Option Nat
  | n, [] => some n
  | n, e :: evs =>
      match wgStep n e with
      | none => none
      | some m => wgRun m evs

/-- Whether an event is one of the three `wg.Add(1)`-guarded spawns. -/
def isSpawn : WgEv → Bool
  | WgEv.spawnLoop => true
  | WgEv.spawnAttempt => true
  | WgEv.spawnReceipt => true
  | _ => false

/-- Number of spawned goroutines in a trace. -/
def countSpawns : List WgEv → Nat
  | [] => 0
  | e :: evs => (if isSpawn e then 1 else 0) + countSpawns evs

/-- Number of completed goroutines (deferred `wg.Done()` runs) in a trace. -/
def countDones : List WgEv → Nat
  | [] => 0
  | WgEv.taskDone :: evs => 1 + countDones evs
  | _ :: evs => countDones evs

/-- `Shutdown` (publisher.go 633-644), viewed through its WaitGroup join:
after the prior spawn/completion history `prior`, `Shutdown` closes the
shutdown signal, optionally cascades to the pool, and returns only once
`pub.wg.Wait()` does — i.e. only if appending `waitReturn` to the history
is a valid WaitGroup run. -/
def ShutdownJoin (prior : List WgEv) : Option Nat :=
  wgRun 0 (prior ++ [WgEv.waitReturn])

/-- A concrete envelope for witnesses. -/
def exEnvelope : Envelope :=
  { Exchange := "ex", RoutingKey := "rk", Mandatory := false,
    Immediate := false, ContentType := "text/plain", Headers := [],
    DeliveryMode := 2, Priority := 0, CorrelationID := "", «Type» := "" }

/-- A concrete letter for witnesses. -/
def exLetter : Letter :=
  { LetterID := "letter-1", Envelope := exEnvelope, Body := [104, 105] }

/-- A concrete publisher configuration for witnesses. -/
def exCfg : PublisherCfg :=
  { publishTimeOutDuration := 500, MaxCacheChannelCount := 4 }

/-- A concrete post-`Shutdown` publisher state for witnesses: the
shutdown signal is closed, the letters queue is open, empty, capacity
1000 (its construction value). -/
def exShutState : PubState :=
  { shutdownClosed := true, q := { closed := false, buf := [], cap := 1000 } }

/-!
### Helper lemmas
-/

/-- The receipt built by `publishReceipt` always carries the letter's id. -/
theorem publishReceipt_LetterID (l : Letter) (e : Option String) :
    (publishReceipt l e).LetterID = l.LetterID := by
  cases e <;> rfl

/-- A continuing step of `PublishWithConfirmation` emits no receipt:
receipts appear only at returns (acquisition failure, timeout, ack). -/
theorem pwcStep_cont_no_receipts (letter : Letter) (t : Nat) (p : Phase)
    (e : Ev) (effs : List Effect) (q : Phase)
    (h : pwcStep letter t p e = some (effs, some q)) :
    receiptsOf effs = [] := by
  cases p <;> cases e <;>
    simp only [pwcStep, Option.some.injEq, Prod.mk.injEq, reduceCtorEq,
      and_false, false_and] at h
  case acquire.poolOk ch =>
    obtain ⟨rfl, -⟩ := h
    rfl
  case publish.pubOk ch =>
    obtain ⟨rfl, -⟩ := h
    rfl
  case publish.pubErr ch m =>
    obtain ⟨rfl, -⟩ := h
    rfl
  case waitConfirm.confirm ch ack =>
    cases ack <;>
      simp only [pwcStep, Option.some.injEq, Prod.mk.injEq, reduceCtorEq,
        and_false] at h
    obtain ⟨rfl, -⟩ := h
    rfl

/-- Any receipt a step of `PublishWithConfirmation` emits carries the
letter's id. -/
theorem pwcStep_receipts_id (letter : Letter) (t : Nat) (p : Phase)
    (e : Ev) (effs : List Effect) (out : Option Phase)
    (h : pwcStep letter t p e = some (effs, out)) :
    ∀ r ∈ receiptsOf effs, r.LetterID = letter.LetterID := by
  cases p <;> cases e <;>
    simp only [pwcStep, Option.some.injEq, Prod.mk.injEq, reduceCtorEq,
      false_and] at h
  case acquire.poolOk ch =>
    obtain ⟨rfl, -⟩ := h
    intro r hr
    simp [receiptsOf] at hr
  case acquire.poolErr m =>
    obtain ⟨rfl, -⟩ := h
    intro r hr
    simp [receiptsOf] at hr
    subst hr
    exact publishReceipt_LetterID letter _
  case publish.pubOk ch =>
    obtain ⟨rfl, -⟩ := h
    intro r hr
    simp [receiptsOf] at hr
  case publish.pubErr ch m =>
    obtain ⟨rfl, -⟩ := h
    intro r hr
    simp [receiptsOf] at hr
  case waitConfirm.timeout ch =>
    obtain ⟨rfl, -⟩ := h
    intro r hr
    simp [receiptsOf] at hr
    subst hr
    exact publishReceipt_LetterID letter _
  case waitConfirm.confirm ch ack =>
    cases ack <;>
      simp only [pwcStep, Option.some.injEq, Prod.mk.injEq] at h
    · obtain ⟨rfl, -⟩ := h
      intro r hr
      simp [receiptsOf] at hr
    · obtain ⟨rfl, -⟩ := h
      intro r hr
      simp [receiptsOf] at hr
      subst hr
      exact publishReceipt_LetterID letter _

/-- Every receipt of a completed `PublishWithConfirmation` run carries
the letter's id. -/
theorem pwcRun_receipts_id (letter : Letter) (t : Nat) :
    ∀ (evs : List Ev) (p : Phase) (effs : List Effect),
    pwcRun letter t p evs = some effs →
    ∀ r ∈ receiptsOf effs, r.LetterID = letter.LetterID := by
  intro evs
  induction evs with
  | nil => intro p effs h; simp [pwcRun] at h
  | cons e evs ih =>
    intro p effs h
    rw [pwcRun] at h
    cases hs : pwcStep letter t p e with
    | none => rw [hs] at h; simp at h
    | some pr =>
      obtain ⟨effs1, out⟩ := pr
      rw [hs] at h
      cases out with
      | none =>
        simp only [Option.some.injEq] at h
        subst h
        exact pwcStep_receipts_id letter t p e effs1 none hs
      | some q =>
        simp only [Option.map_eq_some'] at h
        obtain ⟨effs2, h2, rfl⟩ := h
        intro r hr
        rw [receiptsOf, List.filterMap_append] at hr
        rcases List.mem_append.mp hr with hr1 | hr2
        · exact pwcStep_receipts_id letter t p e effs1 (some q) hs r hr1
        · exact ih q effs2 h2 r hr2

/-- An all-continuing partial run of `PublishWithConfirmation` emits no
receipt. -/
theorem pwcSteps_no_receipts (letter : Letter) (t : Nat) :
    ∀ (evs : List Ev) (p : Phase) (effs : List Effect) (q : Phase),
    pwcSteps letter t p evs = some (effs, q) → receiptsOf effs = [] := by
  intro evs
  induction evs with
  | nil =>
    intro p effs q h
    simp only [pwcSteps, Option.some.injEq, Prod.mk.injEq] at h
    obtain ⟨rfl, -⟩ := h
    rfl
  | cons e evs ih =>
    intro p effs q h
    rw [pwcSteps] at h
    cases hs : pwcStep letter t p e with
    | none => rw [hs] at h; simp at h
    | some pr =>
      obtain ⟨effs1, out⟩ := pr
      rw [hs] at h
      cases out with
      | none => simp at h
      | some q1 =>
        rw [Option.map_eq_some'] at h
        obtain ⟨⟨effs2, q2⟩, h2, heq⟩ := h
        simp only [Prod.mk.injEq] at heq
        obtain ⟨heff, hq⟩ := heq
        subst heff
        have e1 : receiptsOf effs1 = [] :=
          pwcStep_cont_no_receipts letter t p e effs1 q1 hs
        have e2 : receiptsOf effs2 = [] := ih q1 effs2 q2 h2
        simp only [receiptsOf, List.filterMap_append] at e1 e2 ⊢
        simp [e1, e2]

/-- Composition: an all-continuing partial run followed by the rest.  -/
theorem pwcSteps_append (letter : Letter) (t : Nat) :
    ∀ (pre : List Ev) (p : Phase) (effs : List Effect) (q : Phase) (evs : List Ev),
    pwcSteps letter t p pre = some (effs, q) →
    pwcRun letter t p (pre ++ evs) =
      (pwcRun letter t q evs).map (fun es => effs ++ es) := by
  intro pre
  induction pre with
  | nil =>
    intro p effs q evs h
    simp only [pwcSteps, Option.some.injEq, Prod.mk.injEq] at h
    obtain ⟨rfl, rfl⟩ := h
    simp
  | cons e pre ih =>
    intro p effs q evs h
    rw [pwcSteps] at h
    cases hs : pwcStep letter t p e with
    | none => rw [hs] at h; simp at h
    | some pr =>
      obtain ⟨effs1, out⟩ := pr
      rw [hs] at h
      cases out with
      | none => simp at h
      | some q1 =>
        rw [Option.map_eq_some'] at h
        obtain ⟨⟨effs2, q2⟩, h2, heq⟩ := h
        simp only [Prod.mk.injEq] at heq
        obtain ⟨heff, hq⟩ := heq
        subst hq
        subst heff
        simp only [List.cons_append, pwcRun, hs, List.append_eq]
        rw [ih q1 effs2 q2 evs h2, Option.map_map]
        congr 1
        funext es
        simp [Function.comp, List.append_assoc]

/-- The semaphore counter never exceeds its capacity. -/
theorem semRun_le (cap : Nat) :
    ∀ (ops : List SemOp) (n m : Nat), n ≤ cap →
    semRun cap n ops = some m → m ≤ cap := by
  intro ops
  induction ops with
  | nil =>
    intro n m hn h
    simp only [semRun, Option.some.injEq] at h
    omega
  | cons op ops ih =>
    intro n m hn h
    rw [semRun] at h
    cases op with
    | acquire =>
      simp only [semStep] at h
      by_cases hlt : n < cap
      · rw [if_pos hlt] at h
        exact ih (n + 1) m (by omega) h
      · rw [if_neg hlt] at h
        simp at h
    | release =>
      simp only [semStep] at h
      cases n with
      | zero => simp at h
      | succ k => exact ih k m (by omega) h

/-- WaitGroup counting: in a valid run, the final counter plus the
completed tasks equals the initial counter plus the spawned tasks. -/
theorem wgRun_count :
    ∀ (evs : List WgEv) (n m : Nat), wgRun n evs = some m →
    m + countDones evs = n + countSpawns evs := by
  intro evs
  induction evs with
  | nil =>
    intro n m h
    simp only [wgRun, Option.some.injEq] at h
    simp [countDones, countSpawns, h]
  | cons e evs ih =>
    intro n m h
    rw [wgRun] at h
    cases e with
    | spawnLoop =>
      simp only [wgStep] at h
      have := ih (n + 1) m h
      simp [countDones, countSpawns, isSpawn]
      omega
    | spawnAttempt =>
      simp only [wgStep] at h
      have := ih (n + 1) m h
      simp [countDones, countSpawns, isSpawn]
      omega
    | spawnReceipt =>
      simp only [wgStep] at h
      have := ih (n + 1) m h
      simp [countDones, countSpawns, isSpawn]
      omega
    | taskDone =>
      simp only [wgStep] at h
      cases n with
      | zero => simp at h
      | succ k =>
        have := ih k m h
        simp [countDones, countSpawns, isSpawn]
        omega
    | waitReturn =>
      simp only [wgStep] at h
      cases n with
      | zero =>
        have := ih 0 m h
        simp [countDones, countSpawns, isSpawn]
        omega
      | succ k => simp at h

/-- Splitting a WaitGroup run across an append of traces. -/
theorem wgRun_append :
    ∀ (a b : List WgEv) (n : Nat),
    wgRun n (a ++ b) = (wgRun n a).bind (fun k => wgRun k b) := by
  intro a
  induction a with
  | nil => intro b n; simp [wgRun]
  | cons e a ih =>
    intro b n
    rw [List.cons_append, wgRun, wgRun]
    cases wgStep n e with
    | none => simp
    | some m => simp [ih b m]

/-- The nack cycle keeps the machine in the confirmation wait on the
same channel, emitting exactly a fresh timer start and a republish per
round. -/
theorem pwcSteps_nackCycle (letter : Letter) (t ch : Nat) :
    ∀ n, pwcSteps letter t (Phase.waitConfirm ch) (nackCycle n) =
      some (nackCycleEffs letter t ch n, Phase.waitConfirm ch) := by
  intro n
  induction n with
  | zero => rfl
  | succ n ih => simp [nackCycle, nackCycleEffs, pwcSteps, pwcStep, ih]

/-- No receipt is emitted during nack rounds. -/
theorem nackCycleEffs_no_receipts (letter : Letter) (t ch : Nat) :
    ∀ n, receiptsOf (nackCycleEffs letter t ch n) = [] := by
  intro n
  induction n with
  | zero => rfl
  | succ n ih =>
    simp only [nackCycleEffs, receiptsOf, List.filterMap_cons] at ih ⊢
    exact ih

/-- After any number of nack rounds, a positive confirmation completes
the run with a single success receipt and a healthy channel return. -/
theorem pwcRun_nack_then_ack (letter : Letter) (t ch : Nat) (n : Nat) :
    pwcRun letter t (Phase.waitConfirm ch) (nackCycle n ++ [Ev.confirm true]) =
      some (nackCycleEffs letter t ch n ++
        [Effect.receiptE (publishReceipt letter none),
         Effect.returnChannel (some ch) false]) := by
  rw [pwcSteps_append letter t (nackCycle n) (Phase.waitConfirm ch)
    (nackCycleEffs letter t ch n) (Phase.waitConfirm ch) [Ev.confirm true]
    (pwcSteps_nackCycle letter t ch n)]
  rfl

/-!
### Claim theorems
-/

/-- C4: every `PublishReceipt` the publisher emits carries the
`LetterID` of the letter that produced it; `Success` holds exactly when
the error is nil; `FailedLetter` is present exactly on failure and is
then the original letter unchanged.  All emissions go through
`publishReceipt`; the last conjunct checks the id property across every
completed `PublishWithConfirmation` run. -/
theorem publishReceipt_reflects_outcome (l : Letter) (e : Option String) :
    (publishReceipt l e).LetterID = l.LetterID ∧
    (publishReceipt l e).Success = e.isNone ∧
    (publishReceipt l e).FailedLetter = (if e.isSome then some l else none) ∧
    (publishReceipt l e).Error = e ∧
    ∀ (t : Nat) (evs : List Ev) (effs : List Effect) (r : PublishReceipt),
      pwcRun l t Phase.acquire evs = some effs → r ∈ receiptsOf effs →
      r.LetterID = l.LetterID := by
  refine ⟨publishReceipt_LetterID l e, ?_, ?_, ?_, ?_⟩
  · cases e <;> rfl
  · cases e <;> rfl
  · cases e <;> rfl
  · intro t evs effs r h hr
    exact pwcRun_receipts_id l t evs Phase.acquire effs h r hr

/-- Witness for C4 at a concrete letter, error and completed run. -/
theorem publishReceipt_reflects_outcome_witness :
    (publishReceipt exLetter
      (some (acquireFailMsg exLetter.LetterID "down"))).LetterID =
      exLetter.LetterID :=
  (publishReceipt_reflects_outcome exLetter (some "boom")).2.2.2.2 5
    [Ev.poolErr "down"]
    [Effect.receiptE (publishReceipt exLetter
      (some (acquireFailMsg exLetter.LetterID "down")))]
    (publishReceipt exLetter (some (acquireFailMsg exLetter.LetterID "down")))
    rfl (by simp [receiptsOf])

/-- C7: a zero `timeout` argument behaves identically to passing the
configured default publish timeout, for `PublishWithConfirmation` and
for `PublishWithConfirmationError`. -/
theorem pwc_zero_timeout_uses_default (cfg : PublisherCfg) (letter : Letter)
    (evs : List Ev) :
    PublishWithConfirmation cfg letter 0 evs =
      PublishWithConfirmation cfg letter cfg.publishTimeOutDuration evs ∧
    PublishWithConfirmationError cfg letter 0 evs =
      PublishWithConfirmationError cfg letter cfg.publishTimeOutDuration evs := by
  have h : resolveTimeout cfg 0 = resolveTimeout cfg cfg.publishTimeOutDuration := by
    simp [resolveTimeout]
  constructor
  · rw [PublishWithConfirmation, PublishWithConfirmation, h]
  · rw [PublishWithConfirmationError, PublishWithConfirmationError, h]

/-- C10: when `GetChannelFromPool` fails, `Publish` returns the nil
channel host with `erred = true` and stops: no submission, no receipt
(whatever `skipReceipt` is) — the letter is silently lost. -/
theorem Publish_pool_error_drops_letter (letter : Letter) (skipReceipt : Bool)
    (m : String) (rest : List Ev) :
    Publish letter skipReceipt (Ev.poolErr m :: rest) =
      some [Effect.returnChannel none true] ∧
    receiptsOf [Effect.returnChannel none true] = [] ∧
    attemptsOf [Effect.returnChannel none true] = [] :=
  ⟨rfl, rfl, rfl⟩

/-- C6: in every reachable state of the auto-publish drain loop, the
tokens of `parallelPublishSemaphore` — an upper bound on concurrently
in-flight spawned publish attempts — never exceed
`MaxCacheChannelCount / 2 + 1`. -/
theorem deliverLetters_parallel_bound (mcc : Nat) (ops : List SemOp) (n : Nat)
    (h : semRun (parallelSemCap mcc) 0 ops = some n) :
    n ≤ mcc / 2 + 1 :=
  semRun_le (parallelSemCap mcc) ops 0 n (Nat.zero_le _) h

/-- Witness for C6 at capacity `4 / 2 + 1` after one spawn. -/
theorem deliverLetters_parallel_bound_witness : 1 ≤ 4 / 2 + 1 :=
  deliverLetters_parallel_bound 4 [SemOp.acquire] 1 (by decide)

/-- C9: when `Shutdown`'s `wg.Wait()` returns, every goroutine the
publisher spawned (the auto-publish loop, each spawned publish attempt,
each receipt emission) has completed: completions equal spawns in the
prior history, and the counter is zero. -/
theorem Shutdown_joins_spawned_work (prior : List WgEv) (n : Nat)
    (h : ShutdownJoin prior = some n) :
    n = 0 ∧ countDones prior = countSpawns prior := by
  rw [ShutdownJoin, wgRun_append] at h
  cases hp : wgRun 0 prior with
  | none => rw [hp] at h; simp at h
  | some k =>
    rw [hp] at h
    simp only [Option.some_bind] at h
    cases k with
    | succ j => simp [wgRun, wgStep] at h
    | zero =>
      simp only [wgRun, wgStep, Option.some.injEq] at h
      subst h
      refine ⟨rfl, ?_⟩
      have hc := wgRun_count prior 0 0 hp
      omega

/-- Witness for C9: one spawned and completed task, then the join. -/
theorem Shutdown_joins_spawned_work_witness :
    0 = 0 ∧ countDones [WgEv.spawnLoop, WgEv.taskDone] =
      countSpawns [WgEv.spawnLoop, WgEv.taskDone] :=
  Shutdown_joins_spawned_work [WgEv.spawnLoop, WgEv.taskDone] 0 (by decide)

/-- C1: whenever the timeout arm fires while `PublishWithConfirmation`
is waiting for a confirmation, it emits exactly one failure receipt
(whose error names the letter's `LetterID` and recommends
retry/requeue), returns the held channel with `erred = false`, and
terminates: the remaining trace is ignored and no publish attempt
follows the receipt. -/
theorem pwc_timeout_single_failure_receipt (cfg : PublisherCfg)
    (letter : Letter) (timeout : Nat) (pre : List Ev) (ch : Nat)
    (rest : List Ev) (preEffs : List Effect)
    (h : pwcSteps letter (resolveTimeout cfg timeout) Phase.acquire pre =
      some (preEffs, Phase.waitConfirm ch)) :
    PublishWithConfirmation cfg letter timeout (pre ++ Ev.timeout :: rest) =
      some (preEffs ++
        [Effect.receiptE (publishReceipt letter
          (some (confirmTimeoutMsg letter.LetterID))),
         Effect.returnChannel (some ch) false]) ∧
    receiptsOf (preEffs ++
        [Effect.receiptE (publishReceipt letter
          (some (confirmTimeoutMsg letter.LetterID))),
         Effect.returnChannel (some ch) false]) =
      [publishReceipt letter (some (confirmTimeoutMsg letter.LetterID))] ∧
    (publishReceipt letter (some (confirmTimeoutMsg letter.LetterID))).Success
      = false ∧
    confirmTimeoutMsg letter.LetterID =
      "publish confirmation for LetterID: " ++ letter.LetterID ++
        " wasn\x27t received in a timely manner - recommend retry/requeue" ∧
    attemptsOf (preEffs ++
        [Effect.receiptE (publishReceipt letter
          (some (confirmTimeoutMsg letter.LetterID))),
         Effect.returnChannel (some ch) false]) = attemptsOf preEffs := by
  refine ⟨?_, ?_, rfl, rfl, ?_⟩
  · rw [PublishWithConfirmation,
      pwcSteps_append letter (resolveTimeout cfg timeout) pre Phase.acquire
        preEffs (Phase.waitConfirm ch) (Ev.timeout :: rest) h]
    rfl
  · have h0 : receiptsOf preEffs = [] :=
      pwcSteps_no_receipts letter (resolveTimeout cfg timeout) pre
        Phase.acquire preEffs (Phase.waitConfirm ch) h
    simp only [receiptsOf, List.filterMap_append] at h0 ⊢
    rw [h0]
    rfl
  · simp only [attemptsOf, List.filterMap_append]
    simp [attemptsOf]

/-- Witness for C1: acquire channel 7, publish, then the timeout fires. -/
theorem pwc_timeout_single_failure_receipt_witness :
    PublishWithConfirmation exCfg exLetter 100
        ([Ev.poolOk 7, Ev.pubOk] ++ Ev.timeout :: []) =
      some ([Effect.flushConfirms 7, Effect.timerStart 100,
             Effect.publishAttempt 7 exLetter] ++
        [Effect.receiptE (publishReceipt exLetter
          (some (confirmTimeoutMsg exLetter.LetterID))),
         Effect.returnChannel (some 7) false]) :=
  (pwc_timeout_single_failure_receipt exCfg exLetter 100
    [Ev.poolOk 7, Ev.pubOk] 7 []
    [Effect.flushConfirms 7, Effect.timerStart 100,
     Effect.publishAttempt 7 exLetter] (by rfl)).1

/-- C2: a nack makes `PublishWithConfirmation` republish the same letter
on the same channel with a fresh full timeout window and no receipt; the
inner retry is unbounded: for every `n`, `n` nack rounds keep the run
alive on the same channel, and an eventual ack still yields exactly the
one success receipt. -/
theorem pwc_nack_retries_same_channel_unbounded (cfg : PublisherCfg)
    (letter : Letter) (timeout ch : Nat) (n : Nat) :
    pwcStep letter (resolveTimeout cfg timeout) (Phase.waitConfirm ch)
        (Ev.confirm false) =
      some ([], some (Phase.publish ch)) ∧
    pwcSteps letter (resolveTimeout cfg timeout) (Phase.waitConfirm ch)
        (nackCycle n) =
      some (nackCycleEffs letter (resolveTimeout cfg timeout) ch n,
        Phase.waitConfirm ch) ∧
    receiptsOf (nackCycleEffs letter (resolveTimeout cfg timeout) ch n) = [] ∧
    PublishWithConfirmation cfg letter timeout
        (Ev.poolOk ch :: Ev.pubOk :: (nackCycle n ++ [Ev.confirm true])) =
      some (Effect.flushConfirms ch ::
        Effect.timerStart (resolveTimeout cfg timeout) ::
        Effect.publishAttempt ch letter ::
        (nackCycleEffs letter (resolveTimeout cfg timeout) ch n ++
          [Effect.receiptE (publishReceipt letter none),
           Effect.returnChannel (some ch) false])) := by
  refine ⟨rfl, pwcSteps_nackCycle letter _ ch n,
    nackCycleEffs_no_receipts letter _ ch n, ?_⟩
  rw [PublishWithConfirmation]
  simp [pwcRun, pwcStep,
    pwcRun_nack_then_ack letter (resolveTimeout cfg timeout) ch n]

/-- C3: a failed submission inside `PublishWithConfirmation` returns the
channel with `erred = true` and restarts the whole
acquire/flush/publish sequence; a fresh acquisition flushes the new
channel first; the outer retry is unbounded: `n` submission-failure
rounds are a valid run back to acquisition, and no receipt is emitted
for any submission error. -/
theorem pwc_submit_error_restarts_fresh (letter : Letter)
    (t ch chFresh : Nat) (m : String) (n : Nat) :
    pwcStep letter t (Phase.publish ch) (Ev.pubErr m) =
      some ([Effect.timerStart t, Effect.publishAttempt ch letter,
        Effect.returnChannel (some ch) true], some Phase.acquire) ∧
    pwcStep letter t Phase.acquire (Ev.poolOk chFresh) =
      some ([Effect.flushConfirms chFresh], some (Phase.publish chFresh)) ∧
    pwcSteps letter t Phase.acquire (errCycle ch m n) =
      some (errCycleEffs letter t ch n, Phase.acquire) ∧
    receiptsOf (errCycleEffs letter t ch n) = [] := by
  refine ⟨rfl, rfl, ?_, ?_⟩
  · induction n with
    | zero => rfl
    | succ n ih => simp [errCycle, errCycleEffs, pwcSteps, pwcStep, ih]
  · induction n with
    | zero => rfl
    | succ n ih =>
      simp only [errCycleEffs, receiptsOf, List.filterMap_cons] at ih ⊢
      exact ih

/-- C8: `Publish` performs at most one submission attempt with no
retry; on the submission path it publishes once, emits exactly one
receipt of the raw submission outcome when `skipReceipt` is false (none
when true), and returns the channel flagged erred exactly when the
submission failed. -/
theorem Publish_single_attempt (letter : Letter) (skipReceipt : Bool)
    (evs : List Ev) (effs : List Effect)
    (h : Publish letter skipReceipt evs = some effs) :
    (attemptsOf effs).length ≤ 1 ∧
    (∀ ch rest, evs = Ev.poolOk ch :: Ev.pubOk :: rest →
      effs = Effect.publishAttempt ch letter ::
        (if skipReceipt then []
         else [Effect.receiptE (publishReceipt letter none)]) ++
        [Effect.returnChannel (some ch) false]) ∧
    (∀ ch m rest, evs = Ev.poolOk ch :: Ev.pubErr m :: rest →
      effs = Effect.publishAttempt ch letter ::
        (if skipReceipt then []
         else [Effect.receiptE (publishReceipt letter (some m))]) ++
        [Effect.returnChannel (some ch) true]) ∧
    (∀ ch e2 rest, evs = Ev.poolOk ch :: e2 :: rest →
      (receiptsOf effs).length = if skipReceipt then 0 else 1) := by
  cases evs with
  | nil => simp [Publish] at h
  | cons e evs1 =>
    cases e with
    | poolErr m =>
      simp only [Publish, Option.some.injEq] at h
      subst h
      refine ⟨by simp [attemptsOf], ?_, ?_, ?_⟩
      · intro ch rest heq; simp at heq
      · intro ch m2 rest heq; simp at heq
      · intro ch e2 rest heq; simp at heq
    | poolOk ch =>
      cases evs1 with
      | nil => simp [Publish] at h
      | cons e2 evs2 =>
        cases e2 with
        | pubOk =>
          simp only [Publish, Option.some.injEq] at h
          subst h
          refine ⟨?_, ?_, ?_, ?_⟩
          · cases skipReceipt <;> simp [attemptsOf]
          · intro ch2 rest heq
            simp only [List.cons.injEq, Ev.poolOk.injEq] at heq
            obtain ⟨rfl, -⟩ := heq
            rfl
          · intro ch2 m rest heq
            simp at heq
          · intro ch2 e3 rest heq
            cases skipReceipt <;> simp [receiptsOf]
        | pubErr m =>
          simp only [Publish, Option.some.injEq] at h
          subst h
          refine ⟨?_, ?_, ?_, ?_⟩
          · cases skipReceipt <;> simp [attemptsOf]
          · intro ch2 rest heq
            simp at heq
          · intro ch2 m2 rest heq
            simp only [List.cons.injEq, Ev.poolOk.injEq, Ev.pubErr.injEq] at heq
            obtain ⟨rfl, rfl, -⟩ := heq
            rfl
          · intro ch2 e3 rest heq
            cases skipReceipt <;> simp [receiptsOf]
        | poolOk c2 => simp [Publish] at h
        | poolErr m2 => simp [Publish] at h
        | timeout => simp [Publish] at h
        | confirm a => simp [Publish] at h
    | pubOk => simp [Publish] at h
    | pubErr m => simp [Publish] at h
    | timeout => simp [Publish] at h
    | confirm a => simp [Publish] at h

/-- Witness for C8: channel 0, a successful submission, receipt kept. -/
theorem Publish_single_attempt_witness :
    (attemptsOf [Effect.publishAttempt 0 exLetter,
      Effect.receiptE (publishReceipt exLetter none),
      Effect.returnChannel (some 0) false]).length ≤ 1 :=
  (Publish_single_attempt exLetter false [Ev.poolOk 0, Ev.pubOk]
    [Effect.publishAttempt 0 exLetter,
     Effect.receiptE (publishReceipt exLetter none),
     Effect.returnChannel (some 0) false] (by rfl)).1

/-- C5 counterexample: after `Shutdown` (the shutdown signal closed),
with the letters buffer open and not full, Go's `select` may pick the
send arm, so `QueueLetter` returns `true` — refuting the claim that
every post-shutdown enqueue returns false. -/
theorem queueLetter_after_shutdown_counterexample :
    QueueLetter exShutState exLetter SelCase.sendCase =
      some (true,
        { shutdownClosed := true,
          q := { closed := false, buf := [exLetter], cap := 1000 } }) ∧
    exShutState.shutdownClosed = true :=
  ⟨rfl, rfl⟩

/-- C5 (amended): after `Shutdown`, enqueue calls never block (the
shutdown arm is always ready) and never panic (a send to a closed queue
is recovered into `false`); they return `false` whenever the scheduler
picks the shutdown arm, whenever the queue is closed, and whenever the
buffer is full — a `true` result is possible only when the scheduler
picks the send arm on an open, non-full buffer.  `QueueLetters` fails as
a whole as soon as one `safeSend` fails. -/
theorem queueLetter_after_shutdown_amended (st : PubState) (letter : Letter)
    (c : SelCase) (h : st.shutdownClosed = true) :
    selReady st SelCase.shutdownCase = true ∧
    QueueLetter st letter SelCase.shutdownCase = some (false, st) ∧
    (st.q.closed = true →
      QueueLetter st letter SelCase.sendCase = some (false, st)) ∧
    (st.q.closed = false → st.q.cap ≤ st.q.buf.length →
      QueueLetter st letter SelCase.sendCase = none) ∧
    (∀ r st2, QueueLetter st letter c = some (r, st2) → r = true →
      c = SelCase.sendCase ∧ st.q.closed = false ∧
        st.q.buf.length < st.q.cap) ∧
    (∀ rest cs,
      QueueLetters st (letter :: rest) (SelCase.shutdownCase :: cs) =
        some (false, st)) := by
  refine ⟨?_, ?_, ?_, ?_, ?_, ?_⟩
  · simp [selReady, h]
  · simp [QueueLetter, safeSend, selReady, h]
  · intro hc
    simp [QueueLetter, safeSend, selReady, hc]
  · intro hc hful
    have hnlt : ¬ (st.q.buf.length < st.q.cap) := by omega
    simp [QueueLetter, safeSend, selReady, hc, hnlt]
  · intro r st2 hq hr
    subst hr
    cases c with
    | shutdownCase =>
      simp [QueueLetter, safeSend, selReady, h] at hq
    | sendCase =>
      by_cases hc : st.q.closed = true
      · simp [QueueLetter, safeSend, selReady, hc] at hq
      · by_cases hlt : st.q.buf.length < st.q.cap
        · exact ⟨rfl, by simpa using hc, hlt⟩
        · simp [QueueLetter, safeSend, selReady, hc, hlt] at hq
  · intro rest cs
    simp [QueueLetters, safeSend, selReady, h]

/-- Witness for C5's amended claim at a concrete post-shutdown state. -/
theorem queueLetter_after_shutdown_amended_witness :
    selReady exShutState SelCase.shutdownCase = true :=
  (queueLetter_after_shutdown_amended exShutState exLetter
    SelCase.sendCase rfl).1

end tcr
